import Mathlib

/-!
Shallow embedding of the core simulation of the `asteroids` repository
(entity geometry, screen wrap, obstacle subdivision, spawning, shooting,
power-up collection, and the collision/resolution passes), together with
theorems settling the specification claims about it.

Numeric convention: the Python code computes with floats; the embedding
uses exact rationals (`ℚ`), the standard exact-real reading of the
arithmetic in the source.  Calls to `random.*` are modelled as explicit
input parameters (the spec itself requires an injectable random source).
Rotation by an angle (pygame's `Vector2.rotate`) is represented by the
cosine/sine pair `(c, s)` of that angle, so that rotation by the negated
angle is `(c, -s)`.
-/

namespace Asteroids

/-! ## Constants (from `constants.py`) -/

def SCREEN_WIDTH : ℚ := 1280
def SCREEN_HEIGHT : ℚ := 720

/-- Radius of the smallest asteroid (`ASTEROID_MIN_RADIUS = 20`), the
"unit radius" of the spec. -/
def ASTEROID_MIN_RADIUS : ℚ := 20

/-- Number of asteroid size tiers (`ASTEROID_KINDS = 3`). -/
def ASTEROID_KINDS : ℕ := 3

/-- Score for destroying the smallest asteroid (`ASTEROID_BASE_SCORE = 100`). -/
def ASTEROID_BASE_SCORE : ℤ := 100

def PLAYER_RADIUS : ℚ := 20
def PLAYER_SHOOT_SPEED : ℚ := 500
def PLAYER_SHOOT_COOLDOWN : ℚ := 3/10
def SHOT_RADIUS : ℚ := 5

/-! ## 2D vectors (pygame.Vector2) -/

structure Vec2 where
  x : ℚ
  y : ℚ
deriving DecidableEq

/-- Scalar multiple of a vector (`v * k` on a pygame Vector2). -/
def Vec2.smul (k : ℚ) (v : Vec2) : Vec2 := ⟨k * v.x, k * v.y⟩

/-- Rotation of a vector by the angle whose cosine is `c` and sine is `s`
(pygame's `Vector2.rotate(angle)`; the embedding carries the angle via its
cosine/sine pair). -/
def Vec2.rotateCS (v : Vec2) (c s : ℚ) : Vec2 :=
  ⟨v.x * c - v.y * s, v.x * s + v.y * c⟩

/-- Squared Euclidean distance between two points.  The source compares
`a.distance_to(b) <= r`; since both sides are nonnegative this is
equivalent to `dist2 a b ≤ r ^ 2`, which is exact over `ℚ`. -/
def Vec2.dist2 (a b : Vec2) : ℚ :=
  (a.x - b.x) ^ 2 + (a.y - b.y) ^ 2

/-! ## CircleShape (from `circleshape.py`) -/

structure CircleShape where
  position : Vec2
  velocity : Vec2
  radius : ℚ
deriving DecidableEq

/-- One axis of `CircleShape.wrap_position`: the source repeats the same
`if / elif` block for the x axis (bound `screen_width`) and for the
y axis (bound `screen_height`). -/
def wrapCoord (v r bound : ℚ) : ℚ :=
  if v < -r then bound + r
  else if v > bound + r then -r
  else v

/-- Embedding of `CircleShape.wrap_position(screen_width, screen_height)`: wrap the
position around the screen edges, each axis independently. -/
def CircleShape.wrap_position (sh : CircleShape) (w h : ℚ) : CircleShape :=
  { sh with position := ⟨wrapCoord sh.position.x sh.radius w,
                          wrapCoord sh.position.y sh.radius h⟩ }

/-- Embedding of `CircleShape.check_collision(other)`: circle-circle test
`distance ≤ r₁ + r₂`, embedded exactly by comparing squares (both sides
of the source's comparison are nonnegative since radii are positive). -/
def checkCollision (p₁ : Vec2) (r₁ : ℚ) (p₂ : Vec2) (r₂ : ℚ) : Bool :=
  decide (Vec2.dist2 p₁ p₂ ≤ (r₁ + r₂) ^ 2)

/-! ## Wrap lemmas -/

theorem wrapCoord_idem (v r bound : ℚ) :
    wrapCoord (wrapCoord v r bound) r bound = wrapCoord v r bound := by
  unfold wrapCoord
  split_ifs <;> first | rfl | linarith

/-- Claim C7: wrapping sends a coordinate past an edge (by more than the
radius) to the opposite edge offset by the radius, on each of the four
edges independently, and leaves a position that is inside the screen
bounds by at least the radius on every axis unchanged.  Screen
dimensions are nonnegative. -/
theorem wrap_position_edges (sh : CircleShape) (w h : ℚ) (hr : 0 < sh.radius)
    (hw : 0 ≤ w) (hh : 0 ≤ h) :
    (sh.position.x < -sh.radius →
      (sh.wrap_position w h).position.x = w + sh.radius) ∧
    (sh.position.x > w + sh.radius →
      (sh.wrap_position w h).position.x = -sh.radius) ∧
    (sh.position.y < -sh.radius →
      (sh.wrap_position w h).position.y = h + sh.radius) ∧
    (sh.position.y > h + sh.radius →
      (sh.wrap_position w h).position.y = -sh.radius) ∧
    (sh.radius ≤ sh.position.x ∧ sh.position.x ≤ w - sh.radius ∧
      sh.radius ≤ sh.position.y ∧ sh.position.y ≤ h - sh.radius →
      sh.wrap_position w h = sh) := by
  refine ⟨?_, ?_, ?_, ?_, ?_⟩
  · intro hx
    simp only [CircleShape.wrap_position, wrapCoord]
    rw [if_pos hx]
  · intro hx
    have hnot : ¬ sh.position.x < -sh.radius := by linarith
    simp only [CircleShape.wrap_position, wrapCoord]
    rw [if_neg hnot, if_pos hx]
  · intro hy
    simp only [CircleShape.wrap_position, wrapCoord]
    rw [if_pos hy]
  · intro hy
    have hnot : ¬ sh.position.y < -sh.radius := by linarith
    simp only [CircleShape.wrap_position, wrapCoord]
    rw [if_neg hnot, if_pos hy]
  · rintro ⟨h1, h2, h3, h4⟩
    have hx1 : ¬ sh.position.x < -sh.radius := by linarith
    have hx2 : ¬ sh.position.x > w + sh.radius := by linarith
    have hy1 : ¬ sh.position.y < -sh.radius := by linarith
    have hy2 : ¬ sh.position.y > h + sh.radius := by linarith
    simp only [CircleShape.wrap_position, wrapCoord]
    rw [if_neg hx1, if_neg hx2, if_neg hy1, if_neg hy2]

/-- Witness for C7: a shape just past the left edge is repositioned to
`screen_width + radius`. -/
theorem wrap_position_edges_witness :
    (0 : ℚ) < 1 ∧
      ((⟨⟨-2, 5⟩, ⟨0, 0⟩, 1⟩ : CircleShape).wrap_position 10 10).position.x
        = 10 + 1 := by
  refine ⟨by norm_num, ?_⟩
  exact (wrap_position_edges ⟨⟨-2, 5⟩, ⟨0, 0⟩, 1⟩ 10 10 (by norm_num)
    (by norm_num) (by norm_num)).1 (by norm_num)

/-- Claim C10: `wrap_position` is idempotent — applying it twice gives
exactly the same position as applying it once, for every shape of
positive radius, every position and every screen size. -/
theorem wrap_position_idem (sh : CircleShape) (w h : ℚ) (hr : 0 < sh.radius) :
    (sh.wrap_position w h).wrap_position w h = sh.wrap_position w h := by
  simp only [CircleShape.wrap_position]
  exact congrArg (fun p => { sh with position := p })
    (congrArg₂ Vec2.mk (wrapCoord_idem _ _ _) (wrapCoord_idem _ _ _))

/-- Witness for C10: idempotence evaluated on a concrete off-screen shape. -/
theorem wrap_position_idem_witness :
    (((⟨⟨-30, 800⟩, ⟨1, 1⟩, 5⟩ : CircleShape).wrap_position 1280 720).wrap_position
        1280 720)
      = (⟨⟨-30, 800⟩, ⟨1, 1⟩, 5⟩ : CircleShape).wrap_position 1280 720 :=
  wrap_position_idem ⟨⟨-30, 800⟩, ⟨1, 1⟩, 5⟩ 1280 720 (by norm_num)

/-! ## Asteroid and subdivision (from `src/entities/asteroid.py` and
`asteroid.py`; both variants implement the same `split` logic) -/

structure Asteroid where
  position : Vec2
  velocity : Vec2
  radius : ℚ
deriving DecidableEq

/-- Embedding of `Asteroid.split()`.  The asteroid always removes itself from the
world (`self.kill()`, modelled by the caller dropping it); if its radius
is at most `ASTEROID_MIN_RADIUS` it returns `False` with no children,
otherwise it draws a random deflection angle (carried here as its
cosine/sine pair `(c, s)`), creates two children at its own position
with radius `radius - ASTEROID_MIN_RADIUS` and velocities obtained by
rotating its velocity by the angle and by its negation, each scaled by
`1.2`, and returns `True`.  The result pairs the returned Bool with the
created children. -/
def Asteroid.split (a : Asteroid) (c s : ℚ) : Bool × List Asteroid :=
  if a.radius ≤ ASTEROID_MIN_RADIUS then (false, [])
  else
    (true,
      [⟨a.position, Vec2.smul (6/5) (Vec2.rotateCS a.velocity c s),
          a.radius - ASTEROID_MIN_RADIUS⟩,
        ⟨a.position, Vec2.smul (6/5) (Vec2.rotateCS a.velocity c (-s)),
          a.radius - ASTEROID_MIN_RADIUS⟩])

/-- Radius of an asteroid spawned by `AsteroidField.update`
(`asteroid_manager.py`): `ASTEROID_MIN_RADIUS * kind` where `kind` is
drawn by `random.randint(1, ASTEROID_KINDS)`. -/
def AsteroidField.spawnRadius (kind : ℕ) : ℚ :=
  ASTEROID_MIN_RADIUS * kind

/-- Every radius an asteroid in the world can ever have: either the
spawner created it (`AsteroidField.update`, tier drawn from
`[1, ASTEROID_KINDS]`), or it is a child produced by `Asteroid.split`
of an asteroid whose radius was itself ever spawned. -/
inductive EverSpawnedRadius : ℚ → Prop where
  | field_spawn (kind : ℕ) (h1 : 1 ≤ kind) (h2 : kind ≤ ASTEROID_KINDS) :
      EverSpawnedRadius (AsteroidField.spawnRadius kind)
  | split_child (a b : Asteroid) (c s : ℚ)
      (hb : b ∈ (a.split c s).2) (ha : EverSpawnedRadius a.radius) :
      EverSpawnedRadius b.radius

/-- Children of a split have the parent's radius minus the unit radius,
and exist only when the parent's radius exceeds the unit radius. -/
theorem mem_split_radius {a b : Asteroid} {c s : ℚ}
    (hb : b ∈ (a.split c s).2) :
    ASTEROID_MIN_RADIUS < a.radius ∧
      b.radius = a.radius - ASTEROID_MIN_RADIUS := by
  unfold Asteroid.split at hb
  by_cases hle : a.radius ≤ ASTEROID_MIN_RADIUS
  · rw [if_pos hle] at hb
    simp at hb
  · rw [if_neg hle] at hb
    refine ⟨lt_of_not_le hle, ?_⟩
    simp only [List.mem_cons, List.mem_singleton, List.not_mem_nil,
      or_false] at hb
    rcases hb with hb | hb <;> rw [hb]

/-- Claim C4: splitting an asteroid with radius above the unit radius
yields exactly the two children described by the source (same position,
radius reduced by one unit, velocities rotated by the deflection angle
and its negation and scaled by 1.2); splitting one at or below the unit
radius yields no children. -/
theorem split_spec (a : Asteroid) (c s : ℚ) :
    (ASTEROID_MIN_RADIUS < a.radius →
      a.split c s =
        (true,
          [⟨a.position, Vec2.smul (6/5) (Vec2.rotateCS a.velocity c s),
              a.radius - ASTEROID_MIN_RADIUS⟩,
            ⟨a.position, Vec2.smul (6/5) (Vec2.rotateCS a.velocity c (-s)),
              a.radius - ASTEROID_MIN_RADIUS⟩])) ∧
    (a.radius ≤ ASTEROID_MIN_RADIUS → a.split c s = (false, [])) := by
  constructor
  · intro hgt
    unfold Asteroid.split
    rw [if_neg (not_le.mpr hgt)]
  · intro hle
    unfold Asteroid.split
    rw [if_pos hle]

/-- Witness for C4: a tier-2 asteroid (radius 40) splits into two
children of radius 20, and a tier-1 asteroid (radius 20) splits into
nothing. -/
theorem split_spec_witness :
    ((⟨⟨0, 0⟩, ⟨10, 0⟩, 40⟩ : Asteroid).split 1 0 =
      (true, [⟨⟨0, 0⟩, ⟨12, 0⟩, 20⟩, ⟨⟨0, 0⟩, ⟨12, 0⟩, 20⟩])) ∧
    ((⟨⟨0, 0⟩, ⟨10, 0⟩, 20⟩ : Asteroid).split 1 0 = (false, [])) := by
  constructor
  · have h := (split_spec ⟨⟨0, 0⟩, ⟨10, 0⟩, 40⟩ 1 0).1 (by norm_num [ASTEROID_MIN_RADIUS])
    rw [h]
    norm_num [Vec2.smul, Vec2.rotateCS, ASTEROID_MIN_RADIUS]
  · exact (split_spec ⟨⟨0, 0⟩, ⟨10, 0⟩, 20⟩ 1 0).2
      (by norm_num [ASTEROID_MIN_RADIUS])

/-- Claim C5: each split decreases the radius by exactly the unit
radius, no children are produced at or below the unit radius, and any
chain of repeated splits (each element a child of the previous one) is
bounded: a chain of `n` child-steps forces `unit * n` below the starting
radius, so only finitely many splits are possible. -/
theorem split_chain_terminates :
    (∀ (a b : Asteroid) (c s : ℚ), b ∈ (a.split c s).2 →
        b.radius = a.radius - ASTEROID_MIN_RADIUS) ∧
    (∀ (a : Asteroid) (c s : ℚ), a.radius ≤ ASTEROID_MIN_RADIUS →
        (a.split c s).2 = []) ∧
    (∀ (f : ℕ → Asteroid) (n : ℕ),
        (∀ i < n, ∃ c s, f (i + 1) ∈ ((f i).split c s).2) →
        0 < n → ASTEROID_MIN_RADIUS * n < (f 0).radius) := by
  refine ⟨fun a b c s hb => (mem_split_radius hb).2,
    fun a c s hle => ?_, fun f n hchain hn => ?_⟩
  · unfold Asteroid.split
    rw [if_pos hle]
  · have hrad : ∀ i ≤ n, (f i).radius =
        (f 0).radius - ASTEROID_MIN_RADIUS * i := by
      intro i
      induction i with
      | zero => intro _; simp
      | succ k ih =>
        intro hk
        obtain ⟨c, s, hmem⟩ := hchain k (Nat.lt_of_succ_le hk)
        have h2 := (mem_split_radius hmem).2
        have hk' := ih (Nat.le_of_succ_le hk)
        rw [h2, hk']
        push_cast
        ring
    obtain ⟨c, s, hmem⟩ := hchain (n - 1) (Nat.sub_lt hn Nat.one_pos)
    have hgt := (mem_split_radius hmem).1
    have heq := hrad (n - 1) (Nat.sub_le n 1)
    rw [heq] at hgt
    have hcast : ((n - 1 : ℕ) : ℚ) = (n : ℚ) - 1 := by
      have : 1 ≤ n := hn
      push_cast [Nat.cast_sub this]
      ring
    rw [hcast] at hgt
    have : ASTEROID_MIN_RADIUS * ((n : ℚ) - 1) + ASTEROID_MIN_RADIUS
        < (f 0).radius := by linarith
    calc ASTEROID_MIN_RADIUS * (n : ℚ)
        = ASTEROID_MIN_RADIUS * ((n : ℚ) - 1) + ASTEROID_MIN_RADIUS := by ring
      _ < (f 0).radius := this

/-- Witness for C5: the constant chain starting at a tier-3 asteroid
(radius 60) with one child-step satisfies the bound `20 * 1 < 60`;
hypotheses are discharged at the concrete chain. -/
theorem split_chain_terminates_witness :
    ASTEROID_MIN_RADIUS * (1 : ℕ) <
      ((fun i => if i = 0 then (⟨⟨0, 0⟩, ⟨10, 0⟩, 60⟩ : Asteroid)
        else ⟨⟨0, 0⟩, Vec2.smul (6/5) (Vec2.rotateCS ⟨10, 0⟩ 1 0), 40⟩) 0).radius := by
  refine split_chain_terminates.2.2
    (fun i => if i = 0 then (⟨⟨0, 0⟩, ⟨10, 0⟩, 60⟩ : Asteroid)
      else ⟨⟨0, 0⟩, Vec2.smul (6/5) (Vec2.rotateCS ⟨10, 0⟩ 1 0), 40⟩)
    1 ?_ Nat.one_pos
  intro i hi
  interval_cases i
  refine ⟨1, 0, ?_⟩
  norm_num [Asteroid.split, ASTEROID_MIN_RADIUS, List.mem_cons]

/-- Claim C6: every radius an obstacle in the world can ever have (from
the spawner or from repeated subdivision) is a positive integer multiple
of the unit radius. -/
theorem ever_spawned_radius_multiple (r : ℚ) (h : EverSpawnedRadius r) :
    ∃ k : ℕ, 1 ≤ k ∧ r = ASTEROID_MIN_RADIUS * k := by
  induction h with
  | field_spawn kind h1 h2 => exact ⟨kind, h1, rfl⟩
  | split_child a b c s hb ha ih =>
    obtain ⟨k, hk1, hk⟩ := ih
    obtain ⟨hgt, heq⟩ := mem_split_radius hb
    have hk2 : 2 ≤ k := by
      by_contra hlt
      have : k = 1 := le_antisymm (by omega) hk1
      rw [this] at hk
      rw [hk] at hgt
      simp [ASTEROID_MIN_RADIUS] at hgt
    refine ⟨k - 1, by omega, ?_⟩
    rw [heq, hk]
    have : ((k - 1 : ℕ) : ℚ) = (k : ℚ) - 1 := by
      push_cast [Nat.cast_sub (by omega : 1 ≤ k)]
      ring
    rw [this]
    ring

/-- Witness for C6: the radius of a tier-2 spawn (40) is in the
invariant set, and the theorem yields its multiple decomposition. -/
theorem ever_spawned_radius_multiple_witness :
    ∃ k : ℕ, 1 ≤ k ∧ AsteroidField.spawnRadius 2 = ASTEROID_MIN_RADIUS * k :=
  ever_spawned_radius_multiple _
    (EverSpawnedRadius.field_spawn 2 (by norm_num) (by norm_num [ASTEROID_KINDS]))

/-! ## Power-up kinds and the player (from `src/entities/power_up.py`
and `src/entities/player.py`) -/

inductive PowerUpType where
  | SHIELD
  | TRIPLE_SHOT
  | SPEED_BOOST
deriving DecidableEq

/-- Table `PowerUp.DURATION`: configured effect duration per power-up kind. -/
def PowerUp.DURATION : PowerUpType → ℚ
  | .SHIELD => 10
  | .TRIPLE_SHOT => 5
  | .SPEED_BOOST => 7

structure PowerUp where
  position : Vec2
  velocity : Vec2
  ptype : PowerUpType
deriving DecidableEq

/-- Radius of a power-up: `PowerUp.__init__` always passes the class
constant `RADIUS = 15` to the shape constructor. -/
def PowerUp.radius (_ : PowerUp) : ℚ := 15

/-- Duration carried by a power-up instance: `PowerUp.__init__` always
sets `self.duration = self.DURATION[self.type]`. -/
def PowerUp.duration (pu : PowerUp) : ℚ := PowerUp.DURATION pu.ptype

structure Shot where
  position : Vec2
  velocity : Vec2
  radius : ℚ
deriving DecidableEq

/-- The player's ship state: shape fields plus the shooting cooldown,
facing direction and power-up bookkeeping of `Player.__init__`
(`active_power_ups` dict and the three effect flags). -/
structure PlayerState where
  position : Vec2
  radius : ℚ
  direction : Vec2
  shoot_cooldown : ℚ
  active_power_ups : PowerUpType → Option ℚ
  has_shield : Bool
  has_triple_shot : Bool
  has_speed_boost : Bool

/-- Embedding of `Player.has_active_shield()`. -/
def PlayerState.has_active_shield (p : PlayerState) : Bool := p.has_shield

/-- Embedding of `Player.add_power_up(power_type, duration)`: add or refresh the
timer entry and set the matching effect flag. -/
def PlayerState.add_power_up (p : PlayerState) (t : PowerUpType)
    (duration : ℚ) : PlayerState :=
  let p' := { p with active_power_ups :=
    fun u => if u = t then some duration else p.active_power_ups u }
  match t with
  | .SHIELD => { p' with has_shield := true }
  | .TRIPLE_SHOT => { p' with has_triple_shot := true }
  | .SPEED_BOOST => { p' with has_speed_boost := true }

/-- Embedding of `Player.remove_power_up(power_type)`: drop the timer entry (if
present) and clear the matching effect flag. -/
def PlayerState.remove_power_up (p : PlayerState) (t : PowerUpType) :
    PlayerState :=
  let p' := { p with active_power_ups :=
    fun u => if u = t then none else p.active_power_ups u }
  match t with
  | .SHIELD => { p' with has_shield := false }
  | .TRIPLE_SHOT => { p' with has_triple_shot := false }
  | .SPEED_BOOST => { p' with has_speed_boost := false }

/-! ## Shooting (from `src/entities/player.py`) -/

/-- Embedding of the `Player` shot constructor helper: a shot at the player position
with radius `SHOT_RADIUS` and velocity `direction * PLAYER_SHOOT_SPEED`. -/
def PlayerState.create_shot (p : PlayerState) (dir : Vec2) : Shot :=
  { position := p.position,
    velocity := Vec2.smul PLAYER_SHOOT_SPEED dir,
    radius := SHOT_RADIUS }

/-- Embedding of `Player.shoot()`: emit one shot along the facing direction, or three
shots (at `rotate(-15)`, straight, `rotate(15)`) when triple shot is
active.  `(c15, s15)` is the cosine/sine pair of the 15-degree spread
angle. -/
def PlayerState.shoot (p : PlayerState) (c15 s15 : ℚ) : List Shot :=
  if p.has_triple_shot then
    [p.create_shot (Vec2.rotateCS p.direction c15 (-s15)),
      p.create_shot p.direction,
      p.create_shot (Vec2.rotateCS p.direction c15 s15)]
  else
    [p.create_shot p.direction]

/-- The shoot action of `Player.update` with the fire key held: only
when `shoot_cooldown <= 0` does it call `shoot()` and reset
`shoot_cooldown = PLAYER_SHOOT_COOLDOWN`; otherwise nothing happens
(lines 369-371 of `src/entities/player.py` plus `Player.shoot`). -/
def PlayerState.shootStep (p : PlayerState) (c15 s15 : ℚ) :
    PlayerState × List Shot :=
  if p.shoot_cooldown ≤ 0 then
    ({ p with shoot_cooldown := PLAYER_SHOOT_COOLDOWN }, p.shoot c15 s15)
  else
    (p, [])

/-- Claim C8: a shoot request while on cooldown is a silent no-op;
otherwise the cooldown is reset to the fixed constant and exactly one
shot is emitted along the heading, or exactly three shots at the
heading and heading rotated by plus and minus the 15-degree spread when
triple shot is active. -/
theorem shootStep_spec (p : PlayerState) (c15 s15 : ℚ) :
    (0 < p.shoot_cooldown → p.shootStep c15 s15 = (p, [])) ∧
    (p.shoot_cooldown ≤ 0 →
      (p.shootStep c15 s15).1 =
        { p with shoot_cooldown := PLAYER_SHOOT_COOLDOWN } ∧
      (p.shootStep c15 s15).2 =
        (if p.has_triple_shot then
          [p.create_shot (Vec2.rotateCS p.direction c15 (-s15)),
            p.create_shot p.direction,
            p.create_shot (Vec2.rotateCS p.direction c15 s15)]
        else [p.create_shot p.direction])) := by
  constructor
  · intro hpos
    unfold PlayerState.shootStep
    rw [if_neg (not_le.mpr hpos)]
  · intro hle
    unfold PlayerState.shootStep PlayerState.shoot
    rw [if_pos hle]
    exact ⟨rfl, rfl⟩

/-- Witness for C8: a ready player without triple shot fires exactly one
shot along its heading and its cooldown is reset. -/
theorem shootStep_spec_witness :
    ((⟨⟨0, 0⟩, PLAYER_RADIUS, ⟨0, -1⟩, 0, fun _ => none, false, false,
        false⟩ : PlayerState).shootStep 1 0).2 =
      [(⟨⟨0, 0⟩, PLAYER_RADIUS, ⟨0, -1⟩, 0, fun _ => none, false, false,
          false⟩ : PlayerState).create_shot ⟨0, -1⟩] := by
  have h := ((shootStep_spec
    ⟨⟨0, 0⟩, PLAYER_RADIUS, ⟨0, -1⟩, 0, fun _ => none, false, false, false⟩
    1 0).2 (by norm_num)).2
  simpa using h

/-! ## Power-up collection (from `src/managers/power_up_manager.py`,
collection loop of `PowerUpManager.update`) -/

/-- The collection test of `PowerUpManager.update`: the distance between
player and power-up centers is at most
`player.radius + power_up.radius * 1.2`, embedded exactly by comparing
squares (both sides of the source comparison are nonnegative). -/
def collectClose (player : PlayerState) (pu : PowerUp) : Bool :=
  decide (Vec2.dist2 player.position pu.position ≤
    (player.radius + pu.radius * (6/5)) ^ 2)

/-- Collection loop of `PowerUpManager.update`: iterate over a copy of
the power-up list; each power-up close enough to the player applies its
effect via `add_power_up(type, duration)` and is removed (`kill()`). -/
def PowerUpManager.collect (player : PlayerState) :
    List PowerUp → PlayerState × List PowerUp
  | [] => (player, [])
  | pu :: rest =>
    if collectClose player pu then
      PowerUpManager.collect (player.add_power_up pu.ptype pu.duration) rest
    else
      let r := PowerUpManager.collect player rest
      (r.1, pu :: r.2)

theorem add_power_up_position (p : PlayerState) (t : PowerUpType) (d : ℚ) :
    (p.add_power_up t d).position = p.position ∧
      (p.add_power_up t d).radius = p.radius := by
  unfold PlayerState.add_power_up
  cases t <;> exact ⟨rfl, rfl⟩

theorem collectClose_add_power_up (p : PlayerState) (t : PowerUpType)
    (d : ℚ) (pu : PowerUp) :
    collectClose (p.add_power_up t d) pu = collectClose p pu := by
  unfold collectClose
  rw [(add_power_up_position p t d).1, (add_power_up_position p t d).2]

theorem add_power_up_lookup (p : PlayerState) (t : PowerUpType) (d : ℚ) :
    (p.add_power_up t d).active_power_ups t = some d := by
  unfold PlayerState.add_power_up
  cases t <;> simp

theorem add_power_up_lookup_ne (p : PlayerState) (t u : PowerUpType)
    (d : ℚ) (h : t ≠ u) :
    (p.add_power_up u d).active_power_ups t = p.active_power_ups t := by
  unfold PlayerState.add_power_up
  cases u <;> simp [h]

/-- Once the effect map holds a kind at its configured duration, the
rest of the collection loop keeps it there (any later collection of the
same kind rewrites the same configured duration). -/
theorem collect_preserves_duration (t : PowerUpType) :
    ∀ (pus : List PowerUp) (player : PlayerState),
      player.active_power_ups t = some (PowerUp.DURATION t) →
      (PowerUpManager.collect player pus).1.active_power_ups t =
        some (PowerUp.DURATION t) := by
  intro pus
  induction pus with
  | nil => intro player hp; exact hp
  | cons pu rest ih =>
    intro player hp
    unfold PowerUpManager.collect
    by_cases hc : collectClose player pu
    · rw [if_pos hc]
      refine ih _ ?_
      by_cases ht : t = pu.ptype
      · subst ht
        exact add_power_up_lookup player pu.ptype pu.duration
      · rw [add_power_up_lookup_ne player t pu.ptype pu.duration ht]
        exact hp
    · rw [if_neg hc]
      exact ih player hp

/-- Claim C9: every power-up within collection range of the player
during the collection loop is removed from the world, and afterwards the
player's active-effect map holds that power-up's kind at the kind's
configured duration. -/
theorem collect_spec : ∀ (pus : List PowerUp) (player : PlayerState)
    (pu : PowerUp), pu ∈ pus → collectClose player pu = true →
    pu ∉ (PowerUpManager.collect player pus).2 ∧
      (PowerUpManager.collect player pus).1.active_power_ups pu.ptype =
        some (PowerUp.DURATION pu.ptype) := by
  intro pus
  induction pus with
  | nil => intro player pu hmem _; cases hmem
  | cons hd rest ih =>
    intro player pu hmem hclose
    unfold PowerUpManager.collect
    rcases List.mem_cons.mp hmem with heq | hmem'
    · subst heq
      rw [if_pos hclose]
      constructor
      · intro habs
        have hclose' : collectClose
            (player.add_power_up pu.ptype pu.duration) pu = true := by
          rw [collectClose_add_power_up]; exact hclose
        -- a collected power-up never survives into the result list
        have : ∀ (l : List PowerUp) (q : PlayerState),
            collectClose q pu = true →
            pu ∉ (PowerUpManager.collect q l).2 := by
          intro l
          induction l with
          | nil => intro q _ h; cases h
          | cons a as ihl =>
            intro q hq habs2
            unfold PowerUpManager.collect at habs2
            by_cases hca : collectClose q a
            · rw [if_pos hca] at habs2
              exact ihl _ (by rw [collectClose_add_power_up]; exact hq) habs2
            · rw [if_neg hca] at habs2
              rcases List.mem_cons.mp habs2 with h | h
              · subst h; exact hca hq
              · exact ihl _ hq h
        exact this rest _ hclose' habs
      · refine collect_preserves_duration pu.ptype rest _ ?_
        have : pu.duration = PowerUp.DURATION pu.ptype := rfl
        rw [← this]
        exact add_power_up_lookup player pu.ptype pu.duration
    · by_cases hc : collectClose player hd
      · rw [if_pos hc]
        refine ih _ pu hmem' ?_
        rw [collectClose_add_power_up]; exact hclose
      · rw [if_neg hc]
        obtain ⟨h1, h2⟩ := ih player pu hmem' hclose
        refine ⟨?_, h2⟩
        intro habs
        rcases List.mem_cons.mp habs with h | h
        · subst h; exact hc hclose
        · exact h1 h

/-- Witness for C9: a shield power-up sitting on the player is collected
(removed from the world) and the shield effect appears in the map with
its configured 10-second duration. -/
theorem collect_spec_witness :
    collectClose
        ⟨⟨0, 0⟩, PLAYER_RADIUS, ⟨0, -1⟩, 0, fun _ => none, false, false,
          false⟩
        ⟨⟨0, 0⟩, ⟨0, 0⟩, PowerUpType.SHIELD⟩ = true ∧
      (⟨⟨0, 0⟩, ⟨0, 0⟩, PowerUpType.SHIELD⟩ : PowerUp) ∉
        (PowerUpManager.collect
          ⟨⟨0, 0⟩, PLAYER_RADIUS, ⟨0, -1⟩, 0, fun _ => none, false, false,
            false⟩
          [⟨⟨0, 0⟩, ⟨0, 0⟩, PowerUpType.SHIELD⟩]).2 ∧
      (PowerUpManager.collect
          ⟨⟨0, 0⟩, PLAYER_RADIUS, ⟨0, -1⟩, 0, fun _ => none, false, false,
            false⟩
          [⟨⟨0, 0⟩, ⟨0, 0⟩, PowerUpType.SHIELD⟩]).1.active_power_ups
        PowerUpType.SHIELD = some (PowerUp.DURATION PowerUpType.SHIELD) := by
  have hclose : collectClose
      ⟨⟨0, 0⟩, PLAYER_RADIUS, ⟨0, -1⟩, 0, fun _ => none, false, false, false⟩
      ⟨⟨0, 0⟩, ⟨0, 0⟩, PowerUpType.SHIELD⟩ = true := by
    simp only [collectClose, decide_eq_true_eq, Vec2.dist2, PowerUp.radius,
      PLAYER_RADIUS]
    norm_num
  have h := collect_spec
    [⟨⟨0, 0⟩, ⟨0, 0⟩, PowerUpType.SHIELD⟩]
    ⟨⟨0, 0⟩, PLAYER_RADIUS, ⟨0, -1⟩, 0, fun _ => none, false, false, false⟩
    ⟨⟨0, 0⟩, ⟨0, 0⟩, PowerUpType.SHIELD⟩
    (List.mem_singleton.mpr rfl) hclose
  exact ⟨hclose, h.1, h.2⟩

/-! ## Game state machine and collision events (from `game_state.py`
and `src/managers/game_manager.py`) -/

inductive GameState where
  | MENU
  | PLAYING
  | PAUSED
  | GAME_OVER
deriving DecidableEq

/-- Events passed to the collision manager's `game_state_callback`
(`Game.handle_collision_event` in `game_manager.py`). -/
inductive CollisionEvent where
  | player_death
  | asteroid_destroyed (position : Vec2) (size : ℚ)
deriving DecidableEq

/-- Embedding of `Game.handle_collision_event`: a `player_death` event moves the
session to `GAME_OVER`; an `asteroid_destroyed` event only triggers
visual effects and leaves the phase unchanged. -/
def GameManager.handle_collision_event (gs : GameState)
    (ev : CollisionEvent) : GameState :=
  match ev with
  | .player_death => .GAME_OVER
  | .asteroid_destroyed _ _ => gs

/-! ## Collision manager (from `src/managers/collision_manager.py`) -/

/-- The collision manager's own state: the cumulative score. -/
structure CollisionManager where
  score : ℤ
deriving DecidableEq

/-- Result of `CollisionManager.check_player_asteroid_collisions`: the
manager (score), the player, the asteroid group, the returned Bool, and
the callback events fired during the pass. -/
structure PlayerHit where
  cm : CollisionManager
  player : PlayerState
  asteroids : List Asteroid
  result : Bool
  events : List CollisionEvent

/-- Embedding of `CollisionManager.check_player_asteroid_collisions(player,
asteroids)`.  The player's `check_collision` test is delegated to the
oracle `collides` (its geometry, polygon or circle, lives in
`player.py`); `(c, s)` is the cosine/sine pair of the deflection angle a
shield-absorbed split would draw.  On the first colliding asteroid:
with a shield, remove the shield, split the asteroid (children join the
group) and return; without one, fire the `player_death` callback and
return `True`. -/
def CollisionManager.check_player_asteroid_collisions
    (cm : CollisionManager) (collides : Asteroid → Bool) (c s : ℚ)
    (player : PlayerState) : List Asteroid → PlayerHit
  | [] => ⟨cm, player, [], false, []⟩
  | a :: rest =>
    if collides a then
      if player.has_active_shield then
        ⟨cm, player.remove_power_up PowerUpType.SHIELD,
          rest ++ (a.split c s).2, false, []⟩
      else
        ⟨cm, player, a :: rest, true, [CollisionEvent.player_death]⟩
    else
      let r := CollisionManager.check_player_asteroid_collisions cm collides
        c s player rest
      { r with asteroids := a :: r.asteroids }

/-- Claim C1: in a resolution pass where the ship has an active shield
and some asteroid collides with it, the pass consumes the shield (the
effect becomes inactive), splits the first colliding asteroid, leaves
the score unchanged, signals no death, and passes the remaining
asteroids through unexamined. -/
theorem shield_pass_spec (cm : CollisionManager) (collides : Asteroid → Bool)
    (c s : ℚ) (player : PlayerState) (pre post : List Asteroid)
    (a : Asteroid) (hshield : player.has_active_shield = true)
    (hpre : ∀ b ∈ pre, collides b = false) (ha : collides a = true) :
    cm.check_player_asteroid_collisions collides c s player
        (pre ++ a :: post) =
      ⟨cm, player.remove_power_up PowerUpType.SHIELD,
        pre ++ (post ++ (a.split c s).2), false, []⟩ ∧
    (player.remove_power_up PowerUpType.SHIELD).has_shield = false ∧
    (player.remove_power_up PowerUpType.SHIELD).active_power_ups
        PowerUpType.SHIELD = none := by
  refine ⟨?_, by simp [PlayerState.remove_power_up],
    by simp [PlayerState.remove_power_up]⟩
  induction pre with
  | nil =>
    simp only [List.nil_append]
    unfold CollisionManager.check_player_asteroid_collisions
    rw [if_pos ha, if_pos hshield]
  | cons b pre' ih =>
    have hb : collides b = false := hpre b (List.mem_cons_self b pre')
    have ih' := ih fun x hx => hpre x (List.mem_cons_of_mem b hx)
    simp only [List.cons_append]
    unfold CollisionManager.check_player_asteroid_collisions
    rw [if_neg (by rw [hb]; exact Bool.false_ne_true)]
    rw [ih']

/-- Witness for C1: a shielded player hit by a tier-1 asteroid keeps the
score at zero, loses the shield, and no death is signaled. -/
theorem shield_pass_spec_witness :
    ((⟨⟨0, 0⟩, PLAYER_RADIUS, ⟨0, -1⟩, 0,
        fun u => if u = PowerUpType.SHIELD then some 10 else none, true,
        false, false⟩ : PlayerState).has_active_shield = true) ∧
      (CollisionManager.check_player_asteroid_collisions ⟨0⟩ (fun _ => true)
          1 0
          ⟨⟨0, 0⟩, PLAYER_RADIUS, ⟨0, -1⟩, 0,
            fun u => if u = PowerUpType.SHIELD then some 10 else none, true,
            false, false⟩
          [⟨⟨0, 0⟩, ⟨1, 0⟩, 20⟩]).cm = ⟨0⟩ ∧
      (CollisionManager.check_player_asteroid_collisions ⟨0⟩ (fun _ => true)
          1 0
          ⟨⟨0, 0⟩, PLAYER_RADIUS, ⟨0, -1⟩, 0,
            fun u => if u = PowerUpType.SHIELD then some 10 else none, true,
            false, false⟩
          [⟨⟨0, 0⟩, ⟨1, 0⟩, 20⟩]).player.has_shield = false := by
  have h := shield_pass_spec ⟨0⟩ (fun _ => true) 1 0
    ⟨⟨0, 0⟩, PLAYER_RADIUS, ⟨0, -1⟩, 0,
      fun u => if u = PowerUpType.SHIELD then some 10 else none, true,
      false, false⟩
    [] [] ⟨⟨0, 0⟩, ⟨1, 0⟩, 20⟩ rfl (by simp) rfl
  refine ⟨rfl, ?_, ?_⟩
  · rw [show ([⟨⟨0, 0⟩, ⟨1, 0⟩, 20⟩] : List Asteroid) =
      [] ++ ⟨⟨0, 0⟩, ⟨1, 0⟩, 20⟩ :: [] from rfl, h.1]
  · rw [show ([⟨⟨0, 0⟩, ⟨1, 0⟩, 20⟩] : List Asteroid) =
      [] ++ ⟨⟨0, 0⟩, ⟨1, 0⟩, 20⟩ :: [] from rfl, h.1]
    exact h.2.1

/-- Claim C2: in a resolution pass where the ship has no active shield
and some asteroid collides with it, the pass signals ship death (the
`player_death` event drives the session phase to the terminal
`GAME_OVER`), leaves every asteroid untouched (no split from the ship
collision), and checks no asteroid past the first colliding one. -/
theorem no_shield_pass_spec (cm : CollisionManager)
    (collides : Asteroid → Bool) (c s : ℚ) (player : PlayerState)
    (pre post : List Asteroid) (a : Asteroid)
    (hshield : player.has_active_shield = false)
    (hpre : ∀ b ∈ pre, collides b = false) (ha : collides a = true) :
    cm.check_player_asteroid_collisions collides c s player
        (pre ++ a :: post) =
      ⟨cm, player, pre ++ a :: post, true, [CollisionEvent.player_death]⟩ ∧
    (∀ gs : GameState,
      List.foldl GameManager.handle_collision_event gs
        [CollisionEvent.player_death] = GameState.GAME_OVER) := by
  refine ⟨?_, fun gs => rfl⟩
  induction pre with
  | nil =>
    simp only [List.nil_append]
    unfold CollisionManager.check_player_asteroid_collisions
    rw [if_pos ha, if_neg (by rw [hshield]; exact Bool.false_ne_true)]
  | cons b pre' ih =>
    have hb : collides b = false := hpre b (List.mem_cons_self b pre')
    have ih' := ih fun x hx => hpre x (List.mem_cons_of_mem b hx)
    simp only [List.cons_append]
    unfold CollisionManager.check_player_asteroid_collisions
    rw [if_neg (by rw [hb]; exact Bool.false_ne_true)]
    rw [ih']

/-- Witness for C2: an unshielded player hit by an asteroid leaves the
asteroid list unchanged, returns `True`, and the emitted event drives
the phase from `PLAYING` to `GAME_OVER`. -/
theorem no_shield_pass_spec_witness :
    (CollisionManager.check_player_asteroid_collisions ⟨0⟩ (fun _ => true)
        1 0
        ⟨⟨0, 0⟩, PLAYER_RADIUS, ⟨0, -1⟩, 0, fun _ => none, false, false,
          false⟩
        [⟨⟨0, 0⟩, ⟨1, 0⟩, 20⟩]) =
      ⟨⟨0⟩,
        ⟨⟨0, 0⟩, PLAYER_RADIUS, ⟨0, -1⟩, 0, fun _ => none, false, false,
          false⟩,
        [⟨⟨0, 0⟩, ⟨1, 0⟩, 20⟩], true, [CollisionEvent.player_death]⟩ ∧
    List.foldl GameManager.handle_collision_event GameState.PLAYING
        [CollisionEvent.player_death] = GameState.GAME_OVER := by
  have h := no_shield_pass_spec ⟨0⟩ (fun _ => true) 1 0
    ⟨⟨0, 0⟩, PLAYER_RADIUS, ⟨0, -1⟩, 0, fun _ => none, false, false, false⟩
    [] [] ⟨⟨0, 0⟩, ⟨1, 0⟩, 20⟩ rfl (by simp) rfl
  exact ⟨h.1, h.2 GameState.PLAYING⟩

/-! ## Shot-asteroid resolution and scoring (from
`src/managers/collision_manager.py`, with the legacy scoring formula of
`main.py` embedded alongside) -/

/-- Truncation toward zero, the behavior of the Python `int(...)` cast on a
(real-valued) quotient; on a rational this is integer division of
numerator by denominator. -/
def pyInt (q : ℚ) : ℤ := Int.tdiv q.num q.den

/-- Score for destroying an asteroid in
`CollisionManager.check_shot_asteroid_collisions`:
`int(ASTEROID_BASE_SCORE / (asteroid.radius / ASTEROID_MIN_RADIUS))`. -/
def scoreValue (radius : ℚ) : ℤ :=
  pyInt ((ASTEROID_BASE_SCORE : ℚ) / (radius / ASTEROID_MIN_RADIUS))

/-- Score formula of the legacy `main.py` collision loop:
`ASTEROID_BASE_SCORE * (asteroid.radius // ASTEROID_MIN_RADIUS)`
(Python floor division). -/
def mainAsteroidScore (radius : ℚ) : ℤ :=
  ASTEROID_BASE_SCORE * Int.floor (radius / ASTEROID_MIN_RADIUS)

/-- Result of `CollisionManager.check_shot_asteroid_collisions`: the
manager (score), surviving shots, the asteroid group, the floating
score texts added by `screens.add_floating_score(position, value)`, the
callback events, and the returned destroyed count. -/
structure ShotPass where
  cm : CollisionManager
  shots : List Shot
  asteroids : List Asteroid
  floating : List (Vec2 × ℤ)
  events : List CollisionEvent
  destroyed : ℕ

/-- Inner loop of `check_shot_asteroid_collisions` for one shot: find
the first asteroid the shot collides with (circle test); on a hit the
asteroid is split — it leaves the group and its children join it — and
the loop breaks.  Returns the hit asteroid together with the updated
group, or `none`. -/
def innerScan (shot : Shot) (c s : ℚ) :
    List Asteroid → Option (Asteroid × List Asteroid)
  | [] => none
  | a :: rest =>
    if checkCollision shot.position shot.radius a.position a.radius then
      some (a, rest ++ (a.split c s).2)
    else
      match innerScan shot c s rest with
      | none => none
      | some (hit, rest') => some (hit, a :: rest')

/-- Outer loop of `check_shot_asteroid_collisions`, threading the
manager score, the floating-score list, the callback events and the
destroyed count.  `rots` is the stream of random deflection angles
(cosine/sine pairs), one drawn per split.  A shot that hits is killed
(dropped from the surviving shots); a shot that misses every asteroid
survives. -/
def CollisionManager.check_shot_go (rots : ℕ → ℚ × ℚ)
    (cm : CollisionManager) (floating : List (Vec2 × ℤ))
    (events : List CollisionEvent) (destroyed : ℕ) :
    List Shot → List Asteroid → ShotPass
  | [], asts => ⟨cm, [], asts, floating, events, destroyed⟩
  | shot :: rest, asts =>
    match innerScan shot (rots destroyed).1 (rots destroyed).2 asts with
    | none =>
      let r := CollisionManager.check_shot_go rots cm floating events
        destroyed rest asts
      { r with shots := shot :: r.shots }
    | some (hit, asts') =>
      CollisionManager.check_shot_go rots
        ⟨cm.score + scoreValue hit.radius⟩
        (floating ++ [(hit.position, scoreValue hit.radius)])
        (events ++ [CollisionEvent.asteroid_destroyed hit.position hit.radius])
        (destroyed + 1) rest asts'

/-- Embedding of `CollisionManager.check_shot_asteroid_collisions(shots, asteroids)`. -/
def CollisionManager.check_shot_asteroid_collisions
    (cm : CollisionManager) (rots : ℕ → ℚ × ℚ) (shots : List Shot)
    (asteroids : List Asteroid) : ShotPass :=
  CollisionManager.check_shot_go rots cm [] [] 0 shots asteroids

theorem innerScan_first_hit (shot : Shot) (c s : ℚ)
    (pre post : List Asteroid) (a : Asteroid)
    (hpre : ∀ b ∈ pre,
      checkCollision shot.position shot.radius b.position b.radius = false)
    (ha : checkCollision shot.position shot.radius a.position a.radius =
      true) :
    innerScan shot c s (pre ++ a :: post) =
      some (a, pre ++ (post ++ (a.split c s).2)) := by
  induction pre with
  | nil =>
    simp only [List.nil_append]
    unfold innerScan
    rw [if_pos ha]
  | cons b pre' ih =>
    have hb := hpre b (List.mem_cons_self b pre')
    have ih' := ih fun x hx => hpre x (List.mem_cons_of_mem b hx)
    simp only [List.cons_append]
    unfold innerScan
    rw [if_neg (by rw [hb]; exact Bool.false_ne_true)]
    rw [ih']

/-- The scoring formula of the collision manager yields exactly the
base score on a minimum-tier asteroid. -/
theorem scoreValue_min_tier :
    scoreValue ASTEROID_MIN_RADIUS = ASTEROID_BASE_SCORE := by
  have h : (ASTEROID_BASE_SCORE : ℚ) /
      (ASTEROID_MIN_RADIUS / ASTEROID_MIN_RADIUS) = (100 : ℚ) := by
    norm_num [ASTEROID_BASE_SCORE, ASTEROID_MIN_RADIUS]
  unfold scoreValue
  rw [h]
  unfold pyInt ASTEROID_BASE_SCORE
  norm_num

/-- Claim C3: a single projectile destroying a minimum-tier asteroid
(first hit in the pass) adds exactly the base score once, emits exactly
one floating-score feedback entry at the asteroid's pre-destruction
position, removes the asteroid (a minimum-tier split leaves no
children), kills the shot, reports one destruction, and the legacy
`main.py` formula awards the same base score at minimum tier. -/
theorem min_tier_shot_score_spec (cm : CollisionManager)
    (rots : ℕ → ℚ × ℚ) (shot : Shot) (pre post : List Asteroid)
    (a : Asteroid)
    (hpre : ∀ b ∈ pre,
      checkCollision shot.position shot.radius b.position b.radius = false)
    (ha : checkCollision shot.position shot.radius a.position a.radius =
      true)
    (hmin : a.radius = ASTEROID_MIN_RADIUS) :
    (cm.check_shot_asteroid_collisions rots [shot]
        (pre ++ a :: post)).cm.score = cm.score + ASTEROID_BASE_SCORE ∧
    (cm.check_shot_asteroid_collisions rots [shot]
        (pre ++ a :: post)).floating =
      [(a.position, ASTEROID_BASE_SCORE)] ∧
    (cm.check_shot_asteroid_collisions rots [shot]
        (pre ++ a :: post)).asteroids = pre ++ post ∧
    (cm.check_shot_asteroid_collisions rots [shot]
        (pre ++ a :: post)).shots = [] ∧
    (cm.check_shot_asteroid_collisions rots [shot]
        (pre ++ a :: post)).destroyed = 1 ∧
    mainAsteroidScore ASTEROID_MIN_RADIUS = ASTEROID_BASE_SCORE := by
  have hsplit : (a.split (rots 0).1 (rots 0).2).2 = [] := by
    unfold Asteroid.split
    rw [if_pos (le_of_eq hmin)]
  have hscan := innerScan_first_hit shot (rots 0).1 (rots 0).2 pre post a
    hpre ha
  rw [hsplit, List.append_nil] at hscan
  have hval : scoreValue a.radius = ASTEROID_BASE_SCORE := by
    rw [hmin]; exact scoreValue_min_tier
  have hpass : cm.check_shot_asteroid_collisions rots [shot]
      (pre ++ a :: post) =
      ⟨⟨cm.score + ASTEROID_BASE_SCORE⟩, [], pre ++ post,
        [(a.position, ASTEROID_BASE_SCORE)],
        [CollisionEvent.asteroid_destroyed a.position a.radius], 1⟩ := by
    unfold CollisionManager.check_shot_asteroid_collisions
    unfold CollisionManager.check_shot_go
    rw [hscan]
    simp only [hval]
    unfold CollisionManager.check_shot_go
    simp
  refine ⟨by rw [hpass], by rw [hpass], by rw [hpass], by rw [hpass],
    by rw [hpass], ?_⟩
  unfold mainAsteroidScore ASTEROID_BASE_SCORE ASTEROID_MIN_RADIUS
  norm_num

/-- Witness for C3: a shot over a lone minimum-tier asteroid scores
exactly 100 and leaves exactly one floating score at the asteroid's
position. -/
theorem min_tier_shot_score_spec_witness :
    checkCollision (⟨0, 0⟩ : Vec2) SHOT_RADIUS (⟨0, 0⟩ : Vec2) 20 = true ∧
    (CollisionManager.check_shot_asteroid_collisions ⟨0⟩ (fun _ => (1, 0))
        [⟨⟨0, 0⟩, ⟨0, -500⟩, SHOT_RADIUS⟩]
        [⟨⟨0, 0⟩, ⟨1, 0⟩, 20⟩]).cm.score = 0 + ASTEROID_BASE_SCORE ∧
    (CollisionManager.check_shot_asteroid_collisions ⟨0⟩ (fun _ => (1, 0))
        [⟨⟨0, 0⟩, ⟨0, -500⟩, SHOT_RADIUS⟩]
        [⟨⟨0, 0⟩, ⟨1, 0⟩, 20⟩]).floating =
      [((⟨0, 0⟩ : Vec2), ASTEROID_BASE_SCORE)] := by
  have hc : checkCollision (⟨0, 0⟩ : Vec2) SHOT_RADIUS (⟨0, 0⟩ : Vec2) 20 =
      true := by
    simp only [checkCollision, decide_eq_true_eq, Vec2.dist2, SHOT_RADIUS]
    norm_num
  have h := min_tier_shot_score_spec ⟨0⟩ (fun _ => (1, 0))
    ⟨⟨0, 0⟩, ⟨0, -500⟩, SHOT_RADIUS⟩ [] []
    ⟨⟨0, 0⟩, ⟨1, 0⟩, 20⟩ (by simp) hc (by norm_num [ASTEROID_MIN_RADIUS])
  exact ⟨hc, h.1, h.2.1⟩

end Asteroids
